import Mathlib

/-!
Verification of the taskctl background-task supervisor
(src/taskctl/taskctl.py), shallowly embedded in Lean 4.

The on-disk state (one `<name>.info.json` record file and one `<name>.log`
file per task, in a fixed directory) is modelled as an association list of
records keyed by file name plus the set of names whose log file exists.
Timestamps are modelled as integers (the source stores formatted datetime
strings and recovers the instants with `strptime`, so the arithmetic on
instants is what matters).  The operating system is an explicit environment:
the result of the `kill(pid, 0)` probe for each pid, the current clock, and
the pid a fresh spawn would get.
-/

set_option autoImplicit false

namespace Taskctl

/-- `Status` enum of the source: RUNNING / DONE / STOPPED. -/
inductive Status where
  | running
  | done
  | stopped
deriving DecidableEq, Repr

/-- The `TaskInfo` dataclass: one persisted task record. -/
structure TaskInfo where
  cmd : String
  cmd_name : String
  pid : Nat
  start_time : Int
  duration : Option Int
  end_time : Option Int
  status : Status
  exit_code : Option Int
deriving DecidableEq, Repr

/-- Outcome of the `os.kill(pid, 0)` probe: success, or an `OSError` which is
either `ESRCH` (no such process) or `EPERM` (process exists but is not ours to
signal).  POSIX guarantees the probe fails with `ESRCH` exactly when the pid is
absent from the process table. -/
inductive KillResult where
  | success
  | esrch
  | eperm
deriving DecidableEq, Repr

/-- The ambient operating system: probe outcome per pid, current clock, and the
pid that the next `subprocess.Popen` would return. -/
structure Env where
  kill0 : Nat → KillResult
  now : Int
  freshPid : Nat

/-- `is_pid_running`: `os.kill(pid, 0)` inside try/except OSError — true on
success, false on any `OSError`. -/
def is_pid_running (env : Env) (pid : Nat) : Bool :=
  match env.kill0 pid with
  | KillResult.success => true
  | KillResult.esrch => false
  | KillResult.eperm => false

/-- Whether the pid is present in the OS process table: per POSIX the signal-0
probe fails with `ESRCH` exactly when it is absent (an `EPERM` failure means the
process exists). -/
def pid_in_table (env : Env) (pid : Nat) : Bool :=
  match env.kill0 pid with
  | KillResult.success => true
  | KillResult.esrch => false
  | KillResult.eperm => true

/-- The state directory: record files keyed by task name (in enumeration
order), and the set of names whose `.log` file exists. -/
structure FS where
  infos : List (String × TaskInfo)
  logs : List String
deriving DecidableEq, Repr

/-- Reading `<name>.info.json`: the record stored under the name, if any. -/
def lookupA : List (String × TaskInfo) → String → Option TaskInfo
  | [], _ => none
  | p :: rest, n => if p.1 = n then some p.2 else lookupA rest n

/-- `info_file.unlink(missing_ok=True)`: remove the record stored under the
name. -/
def removeA : List (String × TaskInfo) → String → List (String × TaskInfo)
  | [], _ => []
  | p :: rest, n => if p.1 = n then removeA rest n else p :: removeA rest n

/-- `log_file.unlink(missing_ok=True)`: remove a name from the set of existing
log files. -/
def removeL : List String → String → List String
  | [], _ => []
  | s :: rest, n => if s = n then removeL rest n else s :: removeL rest n

@[simp]
theorem lookupA_nil (n : String) : lookupA [] n = none := rfl

@[simp]
theorem lookupA_cons (p : String × TaskInfo) (l : List (String × TaskInfo)) (n : String) :
    lookupA (p :: l) n = if p.1 = n then some p.2 else lookupA l n := rfl

@[simp]
theorem lookupA_cons_pair (k : String) (v : TaskInfo) (l : List (String × TaskInfo))
    (n : String) :
    lookupA ((k, v) :: l) n = if k = n then some v else lookupA l n := rfl

@[simp]
theorem lookupA_removeA_self (l : List (String × TaskInfo)) (n : String) :
    lookupA (removeA l n) n = none := by
  induction l with
  | nil => rfl
  | cons p rest ih =>
    by_cases h : p.1 = n
    · simpa [removeA, h] using ih
    · simp [removeA, h, ih]

theorem lookupA_removeA_ne (l : List (String × TaskInfo)) (n m : String) (h : m ≠ n) :
    lookupA (removeA l n) m = lookupA l m := by
  induction l with
  | nil => rfl
  | cons p rest ih =>
    by_cases hp : p.1 = n
    · have hpm : p.1 ≠ m := fun hm => h (hm ▸ hp)
      simp only [removeA, if_pos hp, lookupA_cons, if_neg hpm]
      exact ih
    · by_cases hm : p.1 = m
      · simp only [removeA, if_neg hp, lookupA_cons, if_pos hm]
      · simp only [removeA, if_neg hp, lookupA_cons, if_neg hm]
        exact ih

theorem lookupA_mem {l : List (String × TaskInfo)} {n : String} {i : TaskInfo}
    (h : lookupA l n = some i) : (n, i) ∈ l := by
  induction l with
  | nil => simp [lookupA] at h
  | cons p rest ih =>
    obtain ⟨k, v⟩ := p
    by_cases hp : k = n
    · simp only [lookupA_cons, if_pos hp] at h
      subst hp
      obtain rfl : v = i := Option.some.inj h
      exact List.mem_cons_self _ _
    · simp only [lookupA_cons, if_neg hp] at h
      exact List.mem_cons_of_mem _ (ih h)

theorem mem_removeL {l : List String} {n m : String} :
    m ∈ removeL l n ↔ m ∈ l ∧ m ≠ n := by
  induction l with
  | nil => simp [removeL]
  | cons s rest ih =>
    by_cases hs : s = n
    · simp only [removeL, if_pos hs, ih, List.mem_cons]
      subst hs
      constructor
      · rintro ⟨hm, hne⟩
        exact ⟨Or.inr hm, hne⟩
      · rintro ⟨hm | hm, hne⟩
        · exact absurd hm hne
        · exact ⟨hm, hne⟩
    · simp only [removeL, if_neg hs, List.mem_cons, ih]
      constructor
      · rintro (rfl | ⟨hm, hne⟩)
        · exact ⟨Or.inl rfl, fun hmn => hs hmn⟩
        · exact ⟨Or.inr hm, hne⟩
      · rintro ⟨rfl | hm, hne⟩
        · exact Or.inl rfl
        · exact Or.inr ⟨hm, hne⟩

/-! ## Operations of the source, embedded -/

/-- The shell wrapper built by `run`: the command, the task name embedded in
its `callback` invocation (resolved at launch time and baked into the wrapper
text), and the pid of the spawned process-group leader. -/
structure Wrapper where
  cmd : String
  callbackName : String
  pid : Nat
deriving DecidableEq, Repr

inductive RunOutcome where
  | duplicateTask
  | launched
deriving DecidableEq, Repr

/-- Result of `run`: the state directory afterwards, the spawned wrapper
process if one was spawned, and the outcome. -/
structure RunRes where
  fs : FS
  spawned : Option Wrapper
  outcome : RunOutcome
deriving DecidableEq, Repr

/-- The non-duplicate tail of `run`: unlink any stale record and log, spawn
the wrapper (its log file is created by opening it in append mode), and write
a fresh RUNNING record capturing the new pid. -/
def launchFresh (env : Env) (fs : FS) (cmd_string cmd_name : String) : RunRes :=
  let infos1 := removeA fs.infos cmd_name
  let logs1 := removeL fs.logs cmd_name
  let w : Wrapper := { cmd := cmd_string, callbackName := cmd_name, pid := env.freshPid }
  let newInfo : TaskInfo :=
    { cmd := cmd_string, cmd_name := cmd_name, pid := env.freshPid,
      start_time := env.now, duration := none, end_time := none,
      status := Status.running, exit_code := none }
  { fs := { infos := (cmd_name, newInfo) :: infos1, logs := cmd_name :: logs1 },
    spawned := some w, outcome := RunOutcome.launched }

/-- `run(cmd_string, cmd_name, watch)` with an explicit name: if a record for
the name exists, is RUNNING and its pid is alive, refuse with a duplicate-task
message and change nothing; otherwise overwrite the stale files and launch.
(The `watch` flag only tails the log afterwards and is irrelevant to state.) -/
def run (env : Env) (fs : FS) (cmd_string cmd_name : String) : RunRes :=
  match lookupA fs.infos cmd_name with
  | some existing_info =>
    if existing_info.status = Status.running ∧ is_pid_running env existing_info.pid then
      { fs := fs, spawned := none, outcome := RunOutcome.duplicateTask }
    else
      launchFresh env fs cmd_string cmd_name
  | none => launchFresh env fs cmd_string cmd_name

inductive StopOutcome where
  | notFound
  | notRunning
  | stopped
deriving DecidableEq, Repr

/-- Result of `stop`: the state directory afterwards, the pids whose process
group received SIGTERM, and the outcome. -/
structure StopRes where
  fs : FS
  signalled : List Nat
  outcome : StopOutcome
deriving DecidableEq, Repr

/-- `stop(cmd_name)` with an explicit name: missing record → not-found message;
record not RUNNING or pid not alive → not-running message, nothing changed;
otherwise SIGTERM the process group, then persist the record with
`status = STOPPED`, `end_time = now`, `duration = now - start_time`
(`exit_code` is left as it was). -/
def stop (env : Env) (fs : FS) (cmd_name : String) : StopRes :=
  match lookupA fs.infos cmd_name with
  | none => { fs := fs, signalled := [], outcome := StopOutcome.notFound }
  | some i =>
    if i.status = Status.running ∧ is_pid_running env i.pid then
      let i2 : TaskInfo :=
        { cmd := i.cmd, cmd_name := i.cmd_name, pid := i.pid, start_time := i.start_time,
          duration := some (env.now - i.start_time), end_time := some env.now,
          status := Status.stopped, exit_code := i.exit_code }
      { fs := { infos := (cmd_name, i2) :: removeA fs.infos cmd_name, logs := fs.logs },
        signalled := [i.pid], outcome := StopOutcome.stopped }
    else
      { fs := fs, signalled := [], outcome := StopOutcome.notRunning }

inductive CallbackOutcome where
  | recordMissing
  | completed
deriving DecidableEq, Repr

/-- `callback(cmd_name, exit_code)`: missing record → message, nothing changed;
otherwise unconditionally set `exit_code`, `end_time = now`,
`duration = now - start_time`, `status = DONE`, and persist. -/
def callback (env : Env) (fs : FS) (cmd_name : String) (exit_code : Int) :
    FS × CallbackOutcome :=
  match lookupA fs.infos cmd_name with
  | none => (fs, CallbackOutcome.recordMissing)
  | some i =>
    let i2 : TaskInfo :=
      { cmd := i.cmd, cmd_name := i.cmd_name, pid := i.pid, start_time := i.start_time,
        duration := some (env.now - i.start_time), end_time := some env.now,
        status := Status.done, exit_code := some exit_code }
    ({ infos := (cmd_name, i2) :: removeA fs.infos cmd_name, logs := fs.logs },
      CallbackOutcome.completed)

inductive RenameOutcome where
  | notFoundOld
  | alreadyExistsNew
  | crashLogMissing
  | renamed
deriving DecidableEq, Repr

/-- `rename(old_name, new_name)`: fails if the old record is missing or a
record already exists under the new name; then `old_log.rename(new_log)` —
which raises (changing nothing) if the old log file does not exist, and
overwrites any log already at the new name — then moves the record and
rewrites it with `cmd_name = new_name`. -/
def rename (fs : FS) (old_name new_name : String) : FS × RenameOutcome :=
  match lookupA fs.infos old_name with
  | none => (fs, RenameOutcome.notFoundOld)
  | some i =>
    match lookupA fs.infos new_name with
    | some _ => (fs, RenameOutcome.alreadyExistsNew)
    | none =>
      if old_name ∈ fs.logs then
        let logs1 := new_name :: removeL (removeL fs.logs old_name) new_name
        let i2 : TaskInfo :=
          { cmd := i.cmd, cmd_name := new_name, pid := i.pid, start_time := i.start_time,
            duration := i.duration, end_time := i.end_time,
            status := i.status, exit_code := i.exit_code }
        ({ infos := (new_name, i2) :: removeA fs.infos old_name, logs := logs1 },
          RenameOutcome.renamed)
      else
        (fs, RenameOutcome.crashLogMissing)

/-- The loop body of `get_running_tasks`: collect `info.cmd_name` of every
record whose status is RUNNING and whose pid is alive. -/
def runningNames (env : Env) : List (String × TaskInfo) → List String
  | [] => []
  | p :: rest =>
    if p.2.status = Status.running ∧ is_pid_running env p.2.pid then
      p.2.cmd_name :: runningNames env rest
    else
      runningNames env rest

/-- `get_running_tasks()`: the reconciled list of running task names. -/
def get_running_tasks (env : Env) (fs : FS) : List String :=
  runningNames env fs.infos

/-- The loop body of `get_stopped_tasks`: for each record, append its
`cmd_name` if the status is STOPPED or DONE, and append it (again) if the pid
is not alive — two independent `if`s in the source. -/
def stoppedNames (env : Env) : List (String × TaskInfo) → List String
  | [] => []
  | p :: rest =>
    (if p.2.status = Status.stopped ∨ p.2.status = Status.done then [p.2.cmd_name] else []) ++
      (if is_pid_running env p.2.pid then [] else [p.2.cmd_name]) ++
      stoppedNames env rest

/-- `get_stopped_tasks()`: names of terminal-or-dead tasks, as collected by the
source (possibly with duplicates; unlinking is idempotent). -/
def get_stopped_tasks (env : Env) (fs : FS) : List String :=
  stoppedNames env fs.infos

/-- Unlink a task's log and record files (`missing_ok=True`). -/
def removeBoth (fs : FS) (name : String) : FS :=
  { infos := removeA fs.infos name, logs := removeL fs.logs name }

/-- The deletion loop of a confirmed `clear()`. -/
def clearNames : List String → FS → FS
  | [], fs => fs
  | t :: ts, fs => clearNames ts (removeBoth fs t)

/-- `clear()` after the user confirms: delete the record and log of every name
produced by `get_stopped_tasks`. -/
def clear (env : Env) (fs : FS) : FS :=
  clearNames (get_stopped_tasks env fs) fs

/-- The name and status columns printed by `list`: taken directly from each
stored record, with no liveness reconciliation. -/
def list_statuses (fs : FS) : List (String × Status) :=
  fs.infos.map (fun p => (p.2.cmd_name, p.2.status))

/-! ## Concrete fixtures for witnesses and counterexamples -/

/-- An OS where every pid is alive. -/
def env0 : Env := { kill0 := fun _ => KillResult.success, now := 100, freshPid := 42 }

/-- An OS where every probe fails with ESRCH (every pid dead). -/
def envDead : Env := { kill0 := fun _ => KillResult.esrch, now := 100, freshPid := 42 }

def fsEmpty : FS := { infos := [], logs := [] }

def infoRunning : TaskInfo :=
  { cmd := "sleep 5", cmd_name := "t", pid := 7, start_time := 10,
    duration := none, end_time := none, status := Status.running, exit_code := none }

def fsRunning : FS := { infos := [("t", infoRunning)], logs := ["t"] }

def infoStopped : TaskInfo :=
  { cmd := "sleep 5", cmd_name := "t", pid := 7, start_time := 0,
    duration := some 50, end_time := some 50, status := Status.stopped, exit_code := none }

def fsStopped : FS := { infos := [("t", infoStopped)], logs := ["t"] }

/-! ## Claims -/

/-- C1, counterexample: the claim says no operation moves a record out of
STOPPED, in particular that `callback` on a STOPPED record leaves it STOPPED.
On a concrete STOPPED record, `callback` sets the status to DONE. -/
theorem C1_counterexample :
    infoStopped.status = Status.stopped ∧
    (lookupA (callback env0 fsStopped "t" 0).1.infos "t").map TaskInfo.status =
      some Status.done := by
  decide

/-- C1 (amended): DONE and STOPPED are terminal with respect to `stop` and
`rename` — `stop` on a non-RUNNING record fails with the not-running message,
sends no signal and changes nothing, and a successful `rename` preserves the
status — but `callback` is unguarded: invoked on any existing record (STOPPED
included) it sets the status to DONE. -/
theorem C1_terminal_amended (env : Env) (fs : FS) (n : String) (i : TaskInfo)
    (hlook : lookupA fs.infos n = some i) (hterm : i.status ≠ Status.running) :
    stop env fs n = { fs := fs, signalled := [], outcome := StopOutcome.notRunning } ∧
    (∀ b j, lookupA fs.infos b = none →
      lookupA (rename fs n b).1.infos b = some j → j.status = i.status) ∧
    (∀ c, ∃ j, lookupA (callback env fs n c).1.infos n = some j ∧
      j.status = Status.done) := by
  refine ⟨?_, ?_, ?_⟩
  · have hc : ¬(i.status = Status.running ∧ is_pid_running env i.pid = true) :=
      fun hc => hterm hc.1
    simp [stop, hlook, hc]
  · intro b j hbnone hj
    simp only [rename, hlook, hbnone] at hj
    by_cases hlog : n ∈ fs.logs
    · simp only [if_pos hlog, lookupA_cons, if_pos rfl] at hj
      obtain rfl := Option.some.inj hj.symm
      rfl
    · simp only [if_neg hlog] at hj
      rw [hbnone] at hj
      cases hj
  · intro c
    refine ⟨{ cmd := i.cmd, cmd_name := i.cmd_name, pid := i.pid, start_time := i.start_time,
              duration := some (env.now - i.start_time), end_time := some env.now,
              status := Status.done, exit_code := some c }, ?_, rfl⟩
    simp only [callback, hlook, lookupA_cons]
    simp

/-- C1 witness for the amended theorem, at a concrete STOPPED record. -/
theorem C1_terminal_amended_witness :
    stop env0 fsStopped "t" =
      { fs := fsStopped, signalled := [], outcome := StopOutcome.notRunning } := by
  exact (C1_terminal_amended env0 fsStopped "t" infoStopped (by decide) (by decide)).1

/-- C2: for an existing record, `callback(name, c)` reports completion and
persists the record with `status = DONE`, `exit_code = c`, `end_time = now`,
`duration = now - start_time` (non-negative when the clock has not gone
backwards); for a missing record it fails with the record-missing message and
changes nothing. -/
theorem C2_callback_spec (env : Env) (fs : FS) (n : String) (c : Int) :
    (∀ i, lookupA fs.infos n = some i →
      (callback env fs n c).2 = CallbackOutcome.completed ∧
      lookupA (callback env fs n c).1.infos n =
        some { cmd := i.cmd, cmd_name := i.cmd_name, pid := i.pid,
               start_time := i.start_time,
               duration := some (env.now - i.start_time), end_time := some env.now,
               status := Status.done, exit_code := some c } ∧
      (i.start_time ≤ env.now → (0 : Int) ≤ env.now - i.start_time)) ∧
    (lookupA fs.infos n = none →
      callback env fs n c = (fs, CallbackOutcome.recordMissing)) := by
  constructor
  · intro i hi
    refine ⟨?_, ?_, ?_⟩
    · simp [callback, hi]
    · simp only [callback, hi, lookupA_cons]
      simp
    · intro hle
      omega
  · intro hnone
    simp [callback, hnone]

/-- C2 witness: a concrete running record completed with exit code 3, and the
missing-record branch on the empty directory. -/
theorem C2_callback_spec_witness :
    lookupA (callback env0 fsRunning "t" 3).1.infos "t" =
      some { cmd := "sleep 5", cmd_name := "t", pid := 7, start_time := 10,
             duration := some 90, end_time := some 100,
             status := Status.done, exit_code := some 3 } ∧
    callback env0 fsEmpty "t" 3 = (fsEmpty, CallbackOutcome.recordMissing) := by
  constructor
  · exact ((C2_callback_spec env0 fsRunning "t" 3).1 infoRunning (by decide)).2.1
  · exact (C2_callback_spec env0 fsEmpty "t" 3).2 (by decide)

/-- C3: `stop(name)` fails with the not-found message when no record exists,
and with the not-running message — sending no signal and leaving the directory
unchanged — when the record's status is not RUNNING or its pid is not alive. -/
theorem C3_stop_errors (env : Env) (fs : FS) (n : String) :
    (lookupA fs.infos n = none →
      stop env fs n = { fs := fs, signalled := [], outcome := StopOutcome.notFound }) ∧
    (∀ i, lookupA fs.infos n = some i →
      i.status ≠ Status.running ∨ is_pid_running env i.pid = false →
      stop env fs n = { fs := fs, signalled := [], outcome := StopOutcome.notRunning }) := by
  constructor
  · intro h
    simp [stop, h]
  · intro i hi hcond
    have hc : ¬(i.status = Status.running ∧ is_pid_running env i.pid = true) := by
      rintro ⟨h1, h2⟩
      rcases hcond with h3 | h3
      · exact h3 h1
      · rw [h2] at h3
        cases h3
    simp [stop, hi, hc]

/-- C3 witness: stopping a STOPPED record, a RUNNING record with a dead pid,
and a missing record. -/
theorem C3_stop_errors_witness :
    stop env0 fsStopped "t" =
      { fs := fsStopped, signalled := [], outcome := StopOutcome.notRunning } ∧
    stop envDead fsRunning "t" =
      { fs := fsRunning, signalled := [], outcome := StopOutcome.notRunning } ∧
    stop env0 fsEmpty "t" =
      { fs := fsEmpty, signalled := [], outcome := StopOutcome.notFound } := by
  refine ⟨?_, ?_, ?_⟩
  · exact (C3_stop_errors env0 fsStopped "t").2 infoStopped (by decide) (Or.inl (by decide))
  · exact (C3_stop_errors envDead fsRunning "t").2 infoRunning (by decide) (Or.inr (by decide))
  · exact (C3_stop_errors env0 fsEmpty "t").1 (by decide)

/-- What the launch tail produces: a launched outcome, a wrapper with the
launch-time name baked into its callback invocation, a fresh RUNNING record in
front of the directory with the stale one removed, and a fresh log. -/
theorem launchFresh_spec (env : Env) (fs : FS) (cmd n : String) :
    (launchFresh env fs cmd n).outcome = RunOutcome.launched ∧
    (launchFresh env fs cmd n).spawned =
      some { cmd := cmd, callbackName := n, pid := env.freshPid } ∧
    (launchFresh env fs cmd n).fs.infos =
      (n, { cmd := cmd, cmd_name := n, pid := env.freshPid, start_time := env.now,
            duration := none, end_time := none, status := Status.running,
            exit_code := none }) :: removeA fs.infos n ∧
    (launchFresh env fs cmd n).fs.logs = n :: removeL fs.logs n :=
  ⟨rfl, rfl, rfl, rfl⟩

/-- C4: `run` on a name whose record is RUNNING with a live pid fails as a
duplicate task, spawning nothing and changing nothing; in every other case
(record absent, terminal, or RUNNING with a dead pid) the stale record and log
are discarded, a wrapper is spawned, and a fresh RUNNING record with the new
pid is written. -/
theorem C4_run_duplicate (env : Env) (fs : FS) (cmd n : String) :
    (∀ i, lookupA fs.infos n = some i →
      i.status = Status.running → is_pid_running env i.pid = true →
      run env fs cmd n = { fs := fs, spawned := none, outcome := RunOutcome.duplicateTask }) ∧
    ((∀ i, lookupA fs.infos n = some i →
        ¬(i.status = Status.running ∧ is_pid_running env i.pid = true)) →
      run env fs cmd n = launchFresh env fs cmd n ∧
      (run env fs cmd n).outcome = RunOutcome.launched ∧
      (run env fs cmd n).spawned =
        some { cmd := cmd, callbackName := n, pid := env.freshPid } ∧
      lookupA (run env fs cmd n).fs.infos n =
        some { cmd := cmd, cmd_name := n, pid := env.freshPid, start_time := env.now,
               duration := none, end_time := none, status := Status.running,
               exit_code := none } ∧
      n ∈ (run env fs cmd n).fs.logs) := by
  constructor
  · intro i hi h1 h2
    simp [run, hi, h1, h2]
  · intro hno
    have hrun : run env fs cmd n = launchFresh env fs cmd n := by
      cases hfs : lookupA fs.infos n with
      | none => simp [run, hfs]
      | some i => simp [run, hfs, hno i hfs]
    refine ⟨hrun, ?_, ?_, ?_, ?_⟩ <;> rw [hrun]
    · exact (launchFresh_spec env fs cmd n).1
    · exact (launchFresh_spec env fs cmd n).2.1
    · rw [(launchFresh_spec env fs cmd n).2.2.1]
      simp
    · rw [(launchFresh_spec env fs cmd n).2.2.2]
      exact List.mem_cons_self _ _

/-- C4 witness: the duplicate branch on a live RUNNING record, and the
overwrite branch on the same record when its pid is dead. -/
theorem C4_run_duplicate_witness :
    run env0 fsRunning "echo hi" "t" =
      { fs := fsRunning, spawned := none, outcome := RunOutcome.duplicateTask } ∧
    lookupA (run envDead fsRunning "echo hi" "t").fs.infos "t" =
      some { cmd := "echo hi", cmd_name := "t", pid := 42, start_time := 100,
             duration := none, end_time := none, status := Status.running,
             exit_code := none } := by
  constructor
  · exact (C4_run_duplicate env0 fsRunning "echo hi" "t").1 infoRunning
      (by decide) (by decide) (by decide)
  · refine ((C4_run_duplicate envDead fsRunning "echo hi" "t").2 ?_).2.2.2.1
    intro i hi
    rw [show lookupA fsRunning.infos "t" = some infoRunning by decide] at hi
    obtain rfl := Option.some.inj hi
    decide

/-- C10: the wrapper spawned by `run` embeds the launch-time name in its
callback invocation and `rename` does not touch it; so after launching `a` and
renaming it to `b` while RUNNING, the wrapper's callback fires with the old
name `a`, fails with the record-missing message changing nothing, and the
record now stored under `b` stays RUNNING with no exit code recorded. -/
theorem C10_rename_orphan (env envC : Env) (fs : FS) (cmd a b : String) (c : Int)
    (ha : lookupA fs.infos a = none) (hb : lookupA fs.infos b = none) (hab : a ≠ b) :
    ∃ w, (run env fs cmd a).spawned = some w ∧ w.callbackName = a ∧
      (rename (run env fs cmd a).fs a b).2 = RenameOutcome.renamed ∧
      callback envC (rename (run env fs cmd a).fs a b).1 w.callbackName c =
        ((rename (run env fs cmd a).fs a b).1, CallbackOutcome.recordMissing) ∧
      ∃ j, lookupA (rename (run env fs cmd a).fs a b).1.infos b = some j ∧
        j.status = Status.running ∧ j.exit_code = none := by
  have hrun : run env fs cmd a = launchFresh env fs cmd a := by
    simp [run, ha]
  rw [hrun]
  refine ⟨{ cmd := cmd, callbackName := a, pid := env.freshPid }, rfl, rfl, ?_⟩
  have hinfos := (launchFresh_spec env fs cmd a).2.2.1
  have hlogs := (launchFresh_spec env fs cmd a).2.2.2
  have hlookA : lookupA (launchFresh env fs cmd a).fs.infos a =
      some { cmd := cmd, cmd_name := a, pid := env.freshPid, start_time := env.now,
             duration := none, end_time := none, status := Status.running,
             exit_code := none } := by
    rw [hinfos, lookupA_cons]
    simp
  have hlookB : lookupA (launchFresh env fs cmd a).fs.infos b = none := by
    rw [hinfos, lookupA_cons, if_neg hab, lookupA_removeA_ne _ _ _ (Ne.symm hab), hb]
  have hlogA : a ∈ (launchFresh env fs cmd a).fs.logs := by
    rw [hlogs]
    exact List.mem_cons_self _ _
  have hren2 : (rename (launchFresh env fs cmd a).fs a b).2 = RenameOutcome.renamed := by
    simp only [rename, hlookA, hlookB, if_pos hlogA]
  have hrenInfos : (rename (launchFresh env fs cmd a).fs a b).1.infos =
      (b, { cmd := cmd, cmd_name := b, pid := env.freshPid, start_time := env.now,
            duration := none, end_time := none, status := Status.running,
            exit_code := none }) :: removeA (launchFresh env fs cmd a).fs.infos a := by
    simp only [rename, hlookA, hlookB, if_pos hlogA]
  have hcbLook : lookupA (rename (launchFresh env fs cmd a).fs a b).1.infos a = none := by
    rw [hrenInfos, lookupA_cons_pair, if_neg (Ne.symm hab), lookupA_removeA_self]
  refine ⟨hren2, ?_, ?_⟩
  · simp [callback, hcbLook]
  · refine ⟨{ cmd := cmd, cmd_name := b, pid := env.freshPid, start_time := env.now,
              duration := none, end_time := none, status := Status.running,
              exit_code := none }, ?_, rfl, rfl⟩
    rw [hrenInfos, lookupA_cons_pair]
    simp

/-- C10 witness: the orphaned-callback trace run concretely from the empty
directory with names "a" and "b". -/
theorem C10_rename_orphan_witness :
    (rename (run env0 fsEmpty "sleep 9" "a").fs "a" "b").2 = RenameOutcome.renamed ∧
    (lookupA (rename (run env0 fsEmpty "sleep 9" "a").fs "a" "b").1.infos "b").map
      TaskInfo.status = some Status.running := by
  obtain ⟨w, hw, hname, hren, hcb, j, hj, hst, hexit⟩ :=
    C10_rename_orphan env0 env0 fsEmpty "sleep 9" "a" "b" 0
      (by decide) (by decide) (by decide)
  refine ⟨hren, ?_⟩
  rw [hj]
  simp [hst]

/-- The field-presence contract of one record, decided: RUNNING means
`end_time`, `duration`, `exit_code` all absent; DONE means all three present;
STOPPED means `end_time` and `duration` present and `exit_code` absent. -/
def fieldInvB (i : TaskInfo) : Bool :=
  match i.status with
  | Status.running => i.end_time.isNone && i.duration.isNone && i.exit_code.isNone
  | Status.done => i.end_time.isSome && i.duration.isSome && i.exit_code.isSome
  | Status.stopped => i.end_time.isSome && i.duration.isSome && i.exit_code.isNone

/-- The field-presence contract over every record in the directory. -/
def fsInvB (fs : FS) : Bool :=
  fs.infos.all (fun p => fieldInvB p.2)

theorem fsInvB_mem {fs : FS} (h : fsInvB fs = true) {n : String} {i : TaskInfo}
    (hl : lookupA fs.infos n = some i) : fieldInvB i = true := by
  have hmem := lookupA_mem hl
  simp only [fsInvB, List.all_eq_true] at h
  exact h _ hmem

theorem all_removeA {l : List (String × TaskInfo)} {f : String × TaskInfo → Bool}
    (h : l.all f = true) (n : String) : (removeA l n).all f = true := by
  induction l with
  | nil => rfl
  | cons p rest ih =>
    simp only [List.all_cons, Bool.and_eq_true] at h
    by_cases hp : p.1 = n
    · simp only [removeA, if_pos hp]
      exact ih h.2
    · simp only [removeA, if_neg hp, List.all_cons, Bool.and_eq_true]
      exact ⟨h.1, ih h.2⟩

theorem fsInvB_launchFresh (env : Env) (fs : FS) (cmd n : String)
    (hinv : fsInvB fs = true) : fsInvB (launchFresh env fs cmd n).fs = true := by
  have hinfos := (launchFresh_spec env fs cmd n).2.2.1
  simp only [fsInvB] at hinv ⊢
  rw [hinfos]
  simp only [List.all_cons, Bool.and_eq_true]
  exact ⟨rfl, all_removeA hinv n⟩

theorem fsInvB_run (env : Env) (fs : FS) (cmd n : String) (hinv : fsInvB fs = true) :
    fsInvB (run env fs cmd n).fs = true := by
  cases hfs : lookupA fs.infos n with
  | none => simpa [run, hfs] using fsInvB_launchFresh env fs cmd n hinv
  | some i =>
    by_cases hc : i.status = Status.running ∧ is_pid_running env i.pid = true
    · simpa [run, hfs, hc] using hinv
    · simpa [run, hfs, hc] using fsInvB_launchFresh env fs cmd n hinv

theorem fsInvB_stop (env : Env) (fs : FS) (n : String) (hinv : fsInvB fs = true) :
    fsInvB (stop env fs n).fs = true := by
  cases hfs : lookupA fs.infos n with
  | none => simpa [stop, hfs] using hinv
  | some i =>
    by_cases hc : i.status = Status.running ∧ is_pid_running env i.pid = true
    · have hf := fsInvB_mem hinv hfs
      have hexit : i.exit_code = none := by
        simp only [fieldInvB, hc.1, Bool.and_eq_true, Option.isNone_iff_eq_none] at hf
        exact hf.2
      simp only [stop, hfs, if_pos hc, fsInvB, List.all_cons, Bool.and_eq_true]
      constructor
      · simp [fieldInvB, hexit]
      · exact all_removeA hinv n
    · simpa [stop, hfs, hc] using hinv

theorem fsInvB_callback (env : Env) (fs : FS) (n : String) (c : Int)
    (hinv : fsInvB fs = true) : fsInvB (callback env fs n c).1 = true := by
  cases hfs : lookupA fs.infos n with
  | none => simpa [callback, hfs] using hinv
  | some i =>
    simp only [callback, hfs, fsInvB, List.all_cons, Bool.and_eq_true]
    exact ⟨rfl, all_removeA hinv n⟩

theorem fsInvB_rename (fs : FS) (a b : String) (hinv : fsInvB fs = true) :
    fsInvB (rename fs a b).1 = true := by
  cases hfa : lookupA fs.infos a with
  | none => simpa [rename, hfa] using hinv
  | some i =>
    cases hfb : lookupA fs.infos b with
    | some j => simpa [rename, hfa, hfb] using hinv
    | none =>
      by_cases hlog : a ∈ fs.logs
      · simp only [rename, hfa, hfb, if_pos hlog, fsInvB, List.all_cons, Bool.and_eq_true]
        refine ⟨?_, all_removeA hinv a⟩
        have hf := fsInvB_mem hinv hfa
        cases hst : i.status <;> simp_all [fieldInvB]
      · simpa [rename, hfa, hfb, hlog] using hinv

/-- C5: every operation preserves the field-presence contract: if every record
in the directory satisfies it, then after `run`, `stop`, `callback` and
`rename` every record still satisfies it. -/
theorem C5_field_presence (env : Env) (fs : FS) (cmd n a b : String) (c : Int)
    (hinv : fsInvB fs = true) :
    fsInvB (run env fs cmd n).fs = true ∧
    fsInvB (stop env fs n).fs = true ∧
    fsInvB (callback env fs n c).1 = true ∧
    fsInvB (rename fs a b).1 = true :=
  ⟨fsInvB_run env fs cmd n hinv, fsInvB_stop env fs n hinv,
    fsInvB_callback env fs n c hinv, fsInvB_rename fs a b hinv⟩

/-- C5 witness: the contract is preserved on a concrete RUNNING record by a
successful stop and by a successful callback. -/
theorem C5_field_presence_witness :
    fsInvB (stop env0 fsRunning "t").fs = true ∧
    fsInvB (callback env0 fsRunning "t" 0).1 = true := by
  have h := C5_field_presence env0 fsRunning "x" "t" "t" "u" 0 (by decide)
  exact ⟨h.2.1, h.2.2.1⟩

theorem mem_runningNames {env : Env} {l : List (String × TaskInfo)} {n : String} :
    n ∈ runningNames env l ↔
      ∃ p, p ∈ l ∧ p.2.cmd_name = n ∧ p.2.status = Status.running ∧
        is_pid_running env p.2.pid = true := by
  induction l with
  | nil => simp [runningNames]
  | cons p rest ih =>
    by_cases hc : p.2.status = Status.running ∧ is_pid_running env p.2.pid = true
    · simp only [runningNames, if_pos hc, List.mem_cons, ih]
      constructor
      · rintro (rfl | ⟨q, hq, h1, h2, h3⟩)
        · exact ⟨p, Or.inl rfl, rfl, hc.1, hc.2⟩
        · exact ⟨q, Or.inr hq, h1, h2, h3⟩
      · rintro ⟨q, hq | hq, h1, h2, h3⟩
        · subst hq
          exact Or.inl h1.symm
        · exact Or.inr ⟨q, hq, h1, h2, h3⟩
    · simp only [runningNames, if_neg hc, ih]
      constructor
      · rintro ⟨q, hq, h⟩
        exact ⟨q, List.mem_cons_of_mem _ hq, h⟩
      · rintro ⟨q, hq, h1, h2, h3⟩
        rcases List.mem_cons.mp hq with rfl | hq2
        · exact absurd ⟨h2, h3⟩ hc
        · exact ⟨q, hq2, h1, h2, h3⟩

/-- C6, counterexample: the claim requires every read path that reports
running tasks — the listing included — to apply the liveness check.  On a
concrete record marked RUNNING whose pid is dead, `list` still displays the
stored RUNNING status, while the selection path excludes the task. -/
theorem C6_counterexample :
    infoRunning.status = Status.running ∧
    is_pid_running envDead infoRunning.pid = false ∧
    list_statuses fsRunning = [("t", Status.running)] ∧
    get_running_tasks envDead fsRunning = [] := by
  decide

/-- C6 (amended): the automatic selection used by `stop` and `watch`
(`get_running_tasks`) does apply the liveness check — a name is selected
exactly when some record carries it with status RUNNING and a live pid — and,
being a pure read, it modifies no record; the `list` output, however, shows
the stored status without reconciliation (see the counterexample). -/
theorem C6_selection_amended (env : Env) (fs : FS) (n : String) :
    n ∈ get_running_tasks env fs ↔
      ∃ p, p ∈ fs.infos ∧ p.2.cmd_name = n ∧ p.2.status = Status.running ∧
        is_pid_running env p.2.pid = true :=
  mem_runningNames

/-- C6 witness: on a live RUNNING record the selection includes the task. -/
theorem C6_selection_amended_witness :
    "t" ∈ get_running_tasks env0 fsRunning :=
  (C6_selection_amended env0 fsRunning "t").mpr
    ⟨("t", infoRunning), by decide, by decide, by decide, by decide⟩

/-- C7: when `a` has a record and a log and `b` has no record, `rename(a, b)`
succeeds; the record then read under `b` is the one previously read under `a`
with its embedded name set to `b`, reading `a` fails, and every other name's
record is untouched; `rename` fails changing nothing when the old record is
missing or the new name is taken. -/
theorem C7_rename_roundtrip (fs : FS) (a b : String) (i : TaskInfo)
    (ha : lookupA fs.infos a = some i) (hb : lookupA fs.infos b = none)
    (hlog : a ∈ fs.logs) :
    (rename fs a b).2 = RenameOutcome.renamed ∧
    lookupA (rename fs a b).1.infos b =
      some { cmd := i.cmd, cmd_name := b, pid := i.pid, start_time := i.start_time,
             duration := i.duration, end_time := i.end_time,
             status := i.status, exit_code := i.exit_code } ∧
    lookupA (rename fs a b).1.infos a = none ∧
    (∀ n, n ≠ a → n ≠ b → lookupA (rename fs a b).1.infos n = lookupA fs.infos n) ∧
    (∀ fs2 x y, lookupA fs2.infos x = none →
      rename fs2 x y = (fs2, RenameOutcome.notFoundOld)) ∧
    (∀ fs2 x y j k, lookupA fs2.infos x = some j → lookupA fs2.infos y = some k →
      rename fs2 x y = (fs2, RenameOutcome.alreadyExistsNew)) := by
  have hab : a ≠ b := by
    intro h
    rw [h, hb] at ha
    cases ha
  have hinfos : (rename fs a b).1.infos =
      (b, { cmd := i.cmd, cmd_name := b, pid := i.pid, start_time := i.start_time,
            duration := i.duration, end_time := i.end_time,
            status := i.status, exit_code := i.exit_code }) :: removeA fs.infos a := by
    simp only [rename, ha, hb, if_pos hlog]
  refine ⟨?_, ?_, ?_, ?_, ?_, ?_⟩
  · simp only [rename, ha, hb, if_pos hlog]
  · rw [hinfos, lookupA_cons_pair]
    simp
  · rw [hinfos, lookupA_cons_pair, if_neg (Ne.symm hab), lookupA_removeA_self]
  · intro n hna hnb
    rw [hinfos, lookupA_cons_pair, if_neg (fun h => hnb h.symm),
      lookupA_removeA_ne _ _ _ hna]
  · intro fs2 x y hx
    simp [rename, hx]
  · intro fs2 x y j k hx hy
    simp [rename, hx, hy]

/-- C7 witness: renaming the concrete running task "t" to "u". -/
theorem C7_rename_roundtrip_witness :
    (rename fsRunning "t" "u").2 = RenameOutcome.renamed ∧
    lookupA (rename fsRunning "t" "u").1.infos "u" =
      some { cmd := "sleep 5", cmd_name := "u", pid := 7, start_time := 10,
             duration := none, end_time := none, status := Status.running,
             exit_code := none } ∧
    lookupA (rename fsRunning "t" "u").1.infos "t" = none := by
  have h := C7_rename_roundtrip fsRunning "t" "u" infoRunning
    (by decide) (by decide) (by decide)
  exact ⟨h.1, h.2.1, h.2.2.1⟩

theorem mem_if_singleton {c : Prop} [Decidable c] {x n : String} :
    n ∈ (if c then [x] else []) ↔ c ∧ n = x := by
  by_cases h : c <;> simp [h]

theorem mem_if_nil_singleton {c : Prop} [Decidable c] {x n : String} :
    n ∈ (if c then ([] : List String) else [x]) ↔ ¬c ∧ n = x := by
  by_cases h : c <;> simp [h]

theorem mem_stoppedNames {env : Env} {l : List (String × TaskInfo)} {n : String} :
    n ∈ stoppedNames env l ↔
      ∃ p, p ∈ l ∧ p.2.cmd_name = n ∧
        (p.2.status = Status.stopped ∨ p.2.status = Status.done ∨
          is_pid_running env p.2.pid = false) := by
  induction l with
  | nil => simp [stoppedNames]
  | cons p rest ih =>
    simp only [stoppedNames, List.mem_append, mem_if_singleton, mem_if_nil_singleton,
      Bool.not_eq_true, ih]
    constructor
    · rintro ((⟨hc, rfl⟩ | ⟨hc, rfl⟩) | ⟨q, hq, h1, h2⟩)
      · exact ⟨p, List.mem_cons_self _ _, rfl, by tauto⟩
      · exact ⟨p, List.mem_cons_self _ _, rfl, Or.inr (Or.inr hc)⟩
      · exact ⟨q, List.mem_cons_of_mem _ hq, h1, h2⟩
    · rintro ⟨q, hq, h1, h2⟩
      rcases List.mem_cons.mp hq with rfl | hq2
      · rcases h2 with h2 | h2 | h2
        · exact Or.inl (Or.inl ⟨Or.inl h2, h1.symm⟩)
        · exact Or.inl (Or.inl ⟨Or.inr h2, h1.symm⟩)
        · exact Or.inl (Or.inr ⟨h2, h1.symm⟩)
      · exact Or.inr ⟨q, hq2, h1, h2⟩

theorem lookupA_clearNames (ts : List String) (fs : FS) (n : String) :
    lookupA (clearNames ts fs).infos n =
      if n ∈ ts then none else lookupA fs.infos n := by
  induction ts generalizing fs with
  | nil => simp [clearNames]
  | cons t ts ih =>
    simp only [clearNames, ih, List.mem_cons]
    by_cases hn : n = t
    · subst hn
      by_cases hmem : n ∈ ts
      · simp [hmem]
      · simp [hmem, removeBoth, lookupA_removeA_self]
    · by_cases hmem : n ∈ ts
      · simp [hn, hmem]
      · simp [hn, hmem, removeBoth, lookupA_removeA_ne _ _ _ hn]

theorem mem_logs_clearNames (ts : List String) (fs : FS) (n : String) :
    n ∈ (clearNames ts fs).logs ↔ n ∉ ts ∧ n ∈ fs.logs := by
  induction ts generalizing fs with
  | nil => simp [clearNames]
  | cons t ts ih =>
    simp only [clearNames, ih, removeBoth, mem_removeL, List.mem_cons]
    constructor
    · rintro ⟨hnts, hnl, hnt⟩
      refine ⟨?_, hnl⟩
      rintro (rfl | h)
      · exact hnt rfl
      · exact hnts h
    · rintro ⟨hnin, hnl⟩
      exact ⟨fun h => hnin (Or.inr h), hnl, fun h => hnin (Or.inl h)⟩

theorem lookupA_of_mem_nodup {l : List (String × TaskInfo)} {n : String} {i : TaskInfo}
    (hn : (l.map Prod.fst).Nodup) (h : (n, i) ∈ l) : lookupA l n = some i := by
  induction l with
  | nil => cases h
  | cons p rest ih =>
    rw [List.map_cons] at hn
    have hn2 := List.nodup_cons.mp hn
    rcases List.mem_cons.mp h with heq | h2
    · rw [← heq]
      simp
    · have hne : p.1 ≠ n := by
        intro he
        apply hn2.1
        rw [he]
        exact List.mem_map_of_mem Prod.fst h2
      rw [lookupA_cons, if_neg hne]
      exact ih hn2.2 h2

/-- C8: under a well-formed directory (each record's embedded name equals its
file key, keys distinct), a confirmed `clear` deletes the record and log of
exactly the tasks whose status is DONE or STOPPED or whose pid is not alive,
and leaves the record and log of every RUNNING-and-alive task unchanged. -/
theorem C8_clear (env : Env) (fs : FS)
    (hk : ∀ p ∈ fs.infos, p.2.cmd_name = p.1)
    (hnd : (fs.infos.map Prod.fst).Nodup) :
    ∀ n i, lookupA fs.infos n = some i →
      ((i.status = Status.done ∨ i.status = Status.stopped ∨
          is_pid_running env i.pid = false) →
        lookupA (clear env fs).infos n = none ∧ n ∉ (clear env fs).logs) ∧
      (i.status = Status.running ∧ is_pid_running env i.pid = true →
        lookupA (clear env fs).infos n = some i ∧
          (n ∈ (clear env fs).logs ↔ n ∈ fs.logs)) := by
  intro n i hi
  have hmem := lookupA_mem hi
  have hkey : i.cmd_name = n := hk (n, i) hmem
  constructor
  · intro hcond
    have hstop : n ∈ get_stopped_tasks env fs :=
      mem_stoppedNames.mpr ⟨(n, i), hmem, hkey, by tauto⟩
    constructor
    · rw [show clear env fs = clearNames (get_stopped_tasks env fs) fs from rfl,
        lookupA_clearNames, if_pos hstop]
    · rw [show clear env fs = clearNames (get_stopped_tasks env fs) fs from rfl]
      intro hmem2
      exact ((mem_logs_clearNames _ _ _).mp hmem2).1 hstop
  · rintro ⟨hrun, halive⟩
    have hstop : n ∉ get_stopped_tasks env fs := by
      intro hin
      obtain ⟨q, hq, hqn, hqcond⟩ := mem_stoppedNames.mp hin
      have hq1 : q.1 = n := ((hk q hq).symm.trans hqn).symm ▸ rfl
      have hql : lookupA fs.infos n = some q.2 := by
        apply lookupA_of_mem_nodup hnd
        have hq' : (q.1, q.2) ∈ fs.infos := hq
        rw [← hq1]
        exact hq'
      obtain rfl : q.2 = i := Option.some.inj (hql.symm.trans hi)
      rcases hqcond with h2 | h2 | h2
      · rw [hrun] at h2
        cases h2
      · rw [hrun] at h2
        cases h2
      · rw [halive] at h2
        cases h2
    constructor
    · rw [show clear env fs = clearNames (get_stopped_tasks env fs) fs from rfl,
        lookupA_clearNames, if_neg hstop]
      exact hi
    · rw [show clear env fs = clearNames (get_stopped_tasks env fs) fs from rfl]
      constructor
      · intro h2
        exact ((mem_logs_clearNames _ _ _).mp h2).2
      · intro h2
        exact (mem_logs_clearNames _ _ _).mpr ⟨hstop, h2⟩

/-- An OS where only pid 7 is alive. -/
def envMixed : Env :=
  { kill0 := fun p => if p = 7 then KillResult.success else KillResult.esrch,
    now := 100, freshPid := 42 }

/-- A RUNNING record whose pid 9 is dead under `envMixed`. -/
def infoDead : TaskInfo :=
  { cmd := "sleep 1", cmd_name := "d", pid := 9, start_time := 0,
    duration := none, end_time := none, status := Status.running, exit_code := none }

def fsMixed : FS := { infos := [("t", infoRunning), ("d", infoDead)], logs := ["t", "d"] }

/-- C8 witness: clearing a directory with one live RUNNING task and one dead
RUNNING task removes exactly the dead one. -/
theorem C8_clear_witness :
    lookupA (clear envMixed fsMixed).infos "d" = none ∧
    "d" ∉ (clear envMixed fsMixed).logs ∧
    lookupA (clear envMixed fsMixed).infos "t" = some infoRunning ∧
    ("t" ∈ (clear envMixed fsMixed).logs ↔ "t" ∈ fsMixed.logs) := by
  have hd := ((C8_clear envMixed fsMixed (by decide) (by decide)) "d" infoDead
    (by decide)).1 (Or.inr (Or.inr (by decide)))
  have ht := ((C8_clear envMixed fsMixed (by decide) (by decide)) "t" infoRunning
    (by decide)).2 ⟨by decide, by decide⟩
  exact ⟨hd.1, hd.2, ht.1, ht.2⟩

/-- An OS where pid 5 exists but belongs to another user: the signal-0 probe
fails with EPERM. -/
def envPerm : Env :=
  { kill0 := fun p => if p = 5 then KillResult.eperm else KillResult.success,
    now := 0, freshPid := 1 }

/-- C9, counterexample: the claim says `is_pid_running` never returns false
for a pid present in the process table.  For a pid whose probe fails with
EPERM — the pid exists but is not ours to signal — the source's blanket
`except OSError` returns false. -/
theorem C9_counterexample :
    pid_in_table envPerm 5 = true ∧ is_pid_running envPerm 5 = false := by
  decide

/-- C9 (amended): `is_pid_running` returns true exactly when the signal-0
probe succeeds, and false exactly when the probe raises an OSError — ESRCH
(pid absent from the process table) or EPERM (pid present but not signalable)
— so a false result does not imply the pid is absent. -/
theorem C9_is_alive_amended (env : Env) (p : Nat) :
    (is_pid_running env p = true ↔ env.kill0 p = KillResult.success) ∧
    (is_pid_running env p = false ↔
      env.kill0 p = KillResult.esrch ∨ env.kill0 p = KillResult.eperm) ∧
    (pid_in_table env p = false → is_pid_running env p = false) := by
  cases h : env.kill0 p <;> simp [is_pid_running, pid_in_table, h]

/-- C9 witness: the amended characterisation evaluated at concrete pids. -/
theorem C9_is_alive_amended_witness :
    is_pid_running envPerm 6 = true ∧ is_pid_running envDead 6 = false := by
  have h1 := (C9_is_alive_amended envPerm 6).1
  have h2 := (C9_is_alive_amended envDead 6).2.1
  exact ⟨h1.mpr (by decide), h2.mpr (Or.inl (by decide))⟩

end Taskctl
